import Mathlib

/-!
Verification of the dynamic PDF layout engine of
`src/lib/dynamicPdfGenerator.ts` (class `DynamicPDFGenerator`).

The engine converts a loosely typed inspection record (`FormData`) into a
single fixed-size page of drawing operations.  The shallow embedding below
follows the source function by function:

* font width measurement (`font.widthOfTextAtSize`) is modelled by an
  arbitrary per-character advance-width function `w : Char → ℚ`, with the
  width of a string at a size being `size * (sum of character widths)` —
  the additive model pdf-lib implements;
* the shrink-then-truncate fitting inlined in `drawLabelValue`
  (lines 542-582) is `fitText`;
* the control-status normalization inlined in `drawControlTable`
  (lines 447-458) is `controlStatusText`, and a whole table row is
  `controlRowOf` / `controlTableRows`;
* signature embedding (`embedSignature`, lines 609-644) is
  `embedSignatureFit` (aspect-ratio fit) and `embedSignatureOps`, with the
  external `PDFDocument.embedPng` decoder abstracted as a parameter
  `decode : String → Except String (ℚ × ℚ)` returning image dimensions;
* the page assembly (`addComprehensivePage`) is reproduced section by
  section, each drawing function returning the emitted operations and the
  new vertical cursor.  Writing the operation stream out as PDF bytes is
  pdf-lib's `save` and stays external: the byte buffer is non-empty exactly
  when the assembled operation stream is produced.

JavaScript specifics are modelled as follows: `undefined`/absent optional
fields are `Option.none`; the falsy-fallback `a || b` on strings is
`orFalsy` (only the empty string is falsy); `String.prototype.toLowerCase`
is mapped character-wise over ASCII and the Turkish uppercase letters the
generator's vocabulary uses; `String.prototype.trimEnd` drops trailing
whitespace characters.
-/

namespace PDFGen

/-! ### Font width model -/

/-- Width of a character list at a font size `size` for a font with
per-character advance widths `w`: the model of pdf-lib's
`widthOfTextAtSize`, which sums glyph advances and scales by the size. -/
def measure (w : Char → ℚ) (size : ℚ) (s : List Char) : ℚ :=
  size * (s.map w).sum

/-! ### TextFitter: the shrink-then-truncate fitting inlined in
`drawLabelValue` (src/lib/dynamicPdfGenerator.ts lines 542-582) -/

/-- The font-size shrinking loop of `drawLabelValue`:
`while (measure(displayValue, fontSize) > maxValueWidth && fontSize > 7) fontSize -= 0.5`,
written with explicit fuel (the fuel `fitText` passes strictly exceeds the
largest possible iteration count, so the function equals the source loop). -/
def shrinkAux (w : Char → ℚ) (text : List Char) (maxW : ℚ) : Nat → ℚ → ℚ
  | 0, size => size
  | n + 1, size =>
    if measure w size text > maxW ∧ size > 7 then shrinkAux w text maxW n (size - 1 / 2)
    else size

/-- Fuel for `shrinkAux`: at least `2 * startSize + 1`, which bounds the
number of `0.5`-steps the loop can take before `fontSize > 7` fails. -/
def shrinkFuel (startSize : ℚ) : Nat :=
  (2 * startSize).num.toNat + 1

/-- The greedy truncation loop of `drawLabelValue`: starting from `acc`,
append characters of the remaining text while the accumulated width at the
final font size stays within `avail`, stopping at the first overflow. -/
def takeFit (w : Char → ℚ) (size avail : ℚ) (acc : List Char) : List Char → List Char
  | [] => acc
  | c :: rest =>
    if measure w size (acc ++ [c]) > avail then acc
    else takeFit w size avail (acc ++ [c]) rest

/-- `String.prototype.trimEnd` on a character list: drop trailing
whitespace. -/
def trimEnd (s : List Char) : List Char :=
  (s.reverse.dropWhile Char.isWhitespace).reverse

/-- `String.prototype.trim`: drop leading and trailing whitespace. -/
def jsTrim (s : String) : String :=
  String.mk (trimEnd (s.toList.dropWhile Char.isWhitespace))

/-- The three-character ellipsis `'...'` appended by `drawLabelValue`. -/
def ellipsis : List Char := ['.', '.', '.']

/-- Result of the fitting inlined in `drawLabelValue`: the final font size
and the display string actually drawn. -/
structure FitResult where
  size : ℚ
  display : List Char

deriving instance DecidableEq for FitResult

/-- The final `fontSize` of `drawLabelValue`: the result of the shrinking
loop started at `startSize`. -/
def fitSize (w : Char → ℚ) (text : List Char) (maxW startSize : ℚ) : ℚ :=
  shrinkAux w text maxW (shrinkFuel startSize) startSize

/-- `availableWidth` of `drawLabelValue`:
`Math.max(maxValueWidth - ellipsisWidth, 0)` at the final font size. -/
def fitAvail (w : Char → ℚ) (text : List Char) (maxW startSize : ℚ) : ℚ :=
  max (maxW - measure w (fitSize w text maxW startSize) ellipsis) 0

/-- The truncated value after `truncated.trimEnd()` in `drawLabelValue`. -/
def fitTrimmed (w : Char → ℚ) (text : List Char) (maxW startSize : ℚ) : List Char :=
  trimEnd (takeFit w (fitSize w text maxW startSize) (fitAvail w text maxW startSize) [] text)

/-- The fitting of `drawLabelValue` (lines 547-576): shrink the font size in
`0.5` steps while the value overflows and the size is above `7`; if the
value still overflows, reserve width for the ellipsis, greedily take the
longest fitting prefix, trim trailing whitespace, and append the ellipsis
whenever characters were dropped (`displayValue.length < value.length`). -/
def fitText (w : Char → ℚ) (text : List Char) (maxW startSize : ℚ) : FitResult :=
  if measure w (fitSize w text maxW startSize) text > maxW then
    ⟨fitSize w text maxW startSize,
     if (fitTrimmed w text maxW startSize).length < text.length
     then fitTrimmed w text maxW startSize ++ ellipsis
     else fitTrimmed w text maxW startSize⟩
  else
    ⟨fitSize w text maxW startSize, text⟩

/-- The all-ones width function used for concrete evaluations: every
character one unit wide per point of font size. -/
def wOne : Char → ℚ := fun _ => 1

/-! ### Control values and FieldResolver

A cell of `formData.fizikiKontrol` / `formData.zulaKontrol` is typed
`(string | boolean | null)[]` but at runtime may also carry numbers or the
newer structured row objects `{ label, uygun, aciklama }`; `CtrlVal`
covers all of these JavaScript shapes, with `vundef` for `undefined`. -/

/-- A JavaScript value that can appear in a control array. -/
inductive CtrlVal where
  | vbool : Bool → CtrlVal
  | vstr : String → CtrlVal
  | vnum : Int → CtrlVal
  | vnull : CtrlVal
  | vundef : CtrlVal
  | vobj : Option String → Option Bool → Option String → CtrlVal

deriving instance DecidableEq for CtrlVal

instance : Inhabited CtrlVal := ⟨.vundef⟩

/-- `String.prototype.toLowerCase`, character-wise: ASCII letters plus the
uppercase Turkish letters occurring in the generator's vocabulary.  (The
sole divergence from JavaScript is `'İ'`, which JavaScript lowercases to
the two code points `i + U+0307`; it never occurs in the needles
`"uygun"`/`"değil"` the source searches for.) -/
def jsCharToLower (c : Char) : Char :=
  if 'A' ≤ c ∧ c ≤ 'Z' then Char.ofNat (c.toNat + 32)
  else if c = 'Ç' then 'ç'
  else if c = 'Ğ' then 'ğ'
  else if c = 'Ö' then 'ö'
  else if c = 'Ş' then 'ş'
  else if c = 'Ü' then 'ü'
  else if c = 'İ' then 'i'
  else c

/-- Whether `needle` occurs as a contiguous substring of `hay`
(`String.prototype.includes`). -/
def containsSub (needle : List Char) : List Char → Bool
  | [] => needle.isEmpty
  | h :: t => needle.isPrefixOf (h :: t) || containsSub needle t

/-- `s.toLowerCase().includes(needle)` of the source. -/
def lowerContains (s needle : String) : Bool :=
  containsSub needle.toList (s.toList.map jsCharToLower)

/-- The status normalization inlined in `drawControlTable`
(src/lib/dynamicPdfGenerator.ts lines 447-458): the strict-equality
branches for `true`/`'uygun'`/`'on'` and `false`/`'uygunsuz'`/`'off'`,
then the lowercase-substring heuristic for other strings, and `'-'` for
everything else.  The argument is `controls?.[i]`, so `none` stands for a
missing entry (or missing array). -/
def controlStatusText (control : Option CtrlVal) : String :=
  if control = some (.vbool true) ∨ control = some (.vstr "uygun")
      ∨ control = some (.vstr "on") then
    "✓ Uygun"
  else if control = some (.vbool false) ∨ control = some (.vstr "uygunsuz")
      ∨ control = some (.vstr "off") then
    "✗ Uygun Değil"
  else
    match control with
    | some (.vstr s) =>
      if lowerContains s "uygun" then
        if lowerContains s "değil" then "✗ Uygun Değil" else "✓ Uygun"
      else "-"
    | _ => "-"

/-- `formatCheckResult` (src/lib/dynamicPdfGenerator.ts lines 661-665),
used for the four seal checks of `drawSealInfo`: only the boolean `true`
or the exact string `'uygun'` yields the check mark, only `false` or the
exact string `'uygunsuz'` yields the cross, everything else `'-'`. -/
def formatCheckResult (value : CtrlVal) : String :=
  if value = .vbool true ∨ value = .vstr "uygun" then "✓ Uygun"
  else if value = .vbool false ∨ value = .vstr "uygunsuz" then "✗ Uygun Değil"
  else "-"

/-! ### TableRenderer: one row of `drawControlTable`
(src/lib/dynamicPdfGenerator.ts lines 423-476) -/

/-- The values drawn for one row of the control table: the numbered label
and its font size, the status cell, and the explanation cell and its font
size. -/
structure ControlRow where
  numbered : String
  labelSize : ℚ
  status : String
  note : String
  noteSize : ℚ

deriving instance DecidableEq for ControlRow

/-- Row `i` of the control table: numbered label
`` `${i + 1}. ${labels[i]}` `` at size `8` (or `7` beyond 30 characters),
the normalized status, and the parallel explanation entry when it is
non-blank (at size `8`, or `7` beyond 20 characters), else `'-'`. -/
def controlRowOf (i : ℕ) (label : String) (control : Option CtrlVal)
    (explanation : Option String) : ControlRow :=
  let numbered := Nat.repr (i + 1) ++ ". " ++ label
  let explPair : String × ℚ :=
    match explanation with
    | some e => if jsTrim e ≠ "" then (e, if e.length > 20 then 7 else 8) else ("-", 8)
    | none => ("-", 8)
  ⟨numbered, if numbered.length > 30 then 7 else 8, controlStatusText control,
   explPair.1, explPair.2⟩

/-- All rows of `drawControlTable`'s `for (let i = 0; i < labels.length; i++)`
loop: exactly one per label, reading `controls?.[i]` and
`explanations?.[i]` (`none` when the array is absent or too short). -/
def controlTableRows (labels : List String) (controls : Option (List CtrlVal))
    (explanations : Option (List String)) : List ControlRow :=
  (List.range labels.length).map fun i =>
    controlRowOf i (labels.getD i "") (controls.bind fun cs => cs[i]?)
      (explanations.bind fun es => es[i]?)

/-! ### ImageEmbedder: `embedSignature`
(src/lib/dynamicPdfGenerator.ts lines 609-644) -/

/-- The target bounding box of a signature. -/
structure SigBox where
  x : ℚ
  y : ℚ
  width : ℚ
  height : ℚ

deriving instance DecidableEq for SigBox

/-- Where a decoded image ends up on the page. -/
structure PlacedImage where
  x : ℚ
  y : ℚ
  width : ℚ
  height : ℚ

deriving instance DecidableEq for PlacedImage

/-- The aspect-ratio fit of `embedSignature` (lines 614-629): starting from
the full box, when `aspectRatio > width / height` shrink the height to
`width / aspectRatio`, otherwise shrink the width to `height * aspectRatio`;
then center the result inside the box. -/
def embedSignatureFit (imgW imgH : ℚ) (b : SigBox) : PlacedImage :=
  let aspectRatio := imgW / imgH
  let finalWidth := if aspectRatio > b.width / b.height then b.width else b.height * aspectRatio
  let finalHeight := if aspectRatio > b.width / b.height then b.width / aspectRatio else b.height
  ⟨b.x + (b.width - finalWidth) / 2, b.y + (b.height - finalHeight) / 2, finalWidth, finalHeight⟩

/-! ### Page constants, drawing operations and the LayoutEngine
(`DynamicPDFGenerator`'s fields and drawing methods) -/

/-- A4 page width, `595.28`. -/
def pageWidth : ℚ := 59528 / 100

/-- A4 page height, `841.89`. -/
def pageHeight : ℚ := 84189 / 100

/-- `this.margin`. -/
def margin : ℚ := 20

/-- `this.lineHeight`. -/
def lineHeight : ℚ := 12

/-- `this.sectionSpacing`. -/
def sectionSpacing : ℚ := 8

/-- `this.fieldSpacing`. -/
def fieldSpacing : ℚ := 6

/-- One drawing operation emitted to the pdf-lib page: text at a position
and size, a rectangle, or an image.  Serializing these into the PDF byte
buffer is pdf-lib's `save` and stays external to the model. -/
inductive Op where
  | text : String → ℚ → ℚ → ℚ → Op
  | rect : ℚ → ℚ → ℚ → ℚ → Op
  | image : ℚ → ℚ → ℚ → ℚ → Op

deriving instance DecidableEq for Op

/-- Text alignment of `drawText`. -/
inductive Align where
  | left
  | center
  | right

/-- `drawText` (lines 584-607): shift the x coordinate for centered and
right-aligned text by the measured width. -/
def drawTextOp (w : Char → ℚ) (text : String) (x y size : ℚ) (align : Align) : Op :=
  match align with
  | .left => .text text x y size
  | .center => .text text (x - measure w size text.toList / 2) y size
  | .right => .text text (x - measure w size text.toList) y size

/-- `drawLabelValue` (lines 542-582): bold label at `x`, fitted value at
`x + 80`, both at the fitted font size; the cursor drops by `lineHeight`.
Returns the emitted operations and the new cursor. -/
def drawLabelValue (w : Char → ℚ) (label value : String) (x y : ℚ) : List Op × ℚ :=
  let maxWidth := pageWidth / 2 - 30
  let maxValueWidth := maxWidth - 80 - 10
  let r := fitText w value.toList maxValueWidth 9
  ([drawTextOp w label x y r.size .left,
    drawTextOp w (String.mk r.display) (x + 80) y r.size .left],
   y - lineHeight)

/-- `drawSectionHeader` (lines 520-540): a shaded band across the content
width with the centered title; the cursor drops by `2 + 12`. -/
def drawSectionHeader (w : Char → ℚ) (title : String) (y : ℚ) : List Op × ℚ :=
  let y1 := y - 2
  ([.rect margin (y1 - 6) (pageWidth - margin * 2) 10,
    drawTextOp w title (pageWidth / 2) (y1 - 1) 9 .center],
   y1 - 12)

/-- The row-drawing loop of `drawControlTable` (lines 437-473): per row the
numbered label at the label column, the status at `margin + 200`, the
explanation at `margin + 280`, dropping the cursor by the fixed row height
`12`. -/
def drawControlTableRowsOps (w : Char → ℚ) : List ControlRow → ℚ → List Op × ℚ
  | [], y => ([], y)
  | r :: rest, y =>
    let ops := [drawTextOp w r.numbered margin y r.labelSize .left,
                drawTextOp w r.status (margin + 200) y 8 .left,
                drawTextOp w r.note (margin + 280) y r.noteSize .left]
    let p := drawControlTableRowsOps w rest (y - 12)
    (ops ++ p.1, p.2)

/-- `drawControlTable` (lines 423-476): draw one row per label, then drop
the cursor by `fieldSpacing`. -/
def drawControlTable (w : Char → ℚ) (labels : List String) (controls : Option (List CtrlVal))
    (explanations : Option (List String)) (y : ℚ) : List Op × ℚ :=
  let p := drawControlTableRowsOps w (controlTableRows labels controls explanations) y
  (p.1, p.2 - fieldSpacing)

/-- Strips the `data:image/png;base64,` prefix
(`base64Data.replace(/^data:image\/png;base64,/, '')`). -/
def stripDataUrl (s : String) : String :=
  if String.isPrefixOf "data:image/png;base64," s
  then s.drop "data:image/png;base64,".length
  else s

/-- `embedSignature` (lines 609-644): strip the data-URL prefix, decode
(the external `PDFDocument.embedPng`, abstracted as `decode`, returning the
image dimensions), aspect-fit and center into the box and draw the image;
on any decode failure the `catch` block draws the fallback text
`'(İmza yüklenemedi)'` at the box origin instead.  The function is total:
no failure escapes it. -/
def embedSignatureOps (w : Char → ℚ) (decode : String → Except String (ℚ × ℚ))
    (base64Data : String) (x y width height : ℚ) : List Op :=
  match decode (stripDataUrl base64Data) with
  | .ok dims =>
    let p := embedSignatureFit dims.1 dims.2 ⟨x, y, width, height⟩
    [.image p.x p.y p.width p.height]
  | .error _ => [drawTextOp w "(İmza yüklenemedi)" x y 8 .left]

/-! ### The input record (`FormData` of src/lib/dynamicPdfGenerator.ts)
and the field helpers -/

/-- One entry of `formData.soforler`. -/
structure Driver where
  ad : Option String
  adSoyad : Option String
  tel : Option String
  telefon : Option String
  imza : Option String

deriving instance Inhabited for Driver

/-- One of the two four-check seal-control objects (`muhurKontrol`,
`yeniMuhurKontrol`); the fields are typed `boolean?` but reach
`formatCheckResult` untyped, so they are modelled as `CtrlVal`. -/
structure SealCheck where
  evrakUyum : CtrlVal
  saglamlik : CtrlVal
  gerginlik : CtrlVal
  kilitUygunluk : CtrlVal

deriving instance Inhabited for SealCheck

/-- The `FormData` record, restricted to the fields `addComprehensivePage`
reads.  Optional scalar fields are `Option`; the `cikis_*` fields are read
by the source without being declared in the interface. -/
structure FormData where
  mrnNo : Option String := none
  mrn : Option String := none
  rejimHakSahibiAdi : Option String := none
  rejimHak : Option String := none
  sevkDurumu : Option String := none
  tasiyiciFirma : Option String := none
  aracTuru : Option String := none
  muhurDurumu : Option String := none
  cekiciPlaka : Option String := none
  cekici : Option String := none
  konteynerNo : Option String := none
  loadingLocation : Option String := none
  yuklemeYeri : Option String := none
  preLoadingWeight : Option String := none
  yuklemeOncesiKantar : Option String := none
  dorsePlaka : Option String := none
  dorse : Option String := none
  kamyonPlaka : Option String := none
  yuklemeTarihi : Option String := none
  postLoadingWeight : Option String := none
  izinliGondericiKantar : Option String := none
  soforler : List Driver := []
  muhurNum : Option String := none
  muhurKontrol : Option SealCheck := none
  yeniMuhurNum : Option String := none
  yeniMuhurKontrol : Option SealCheck := none
  cikisYeniMuhurNo : Option String := none
  cikisMuhurEvrakUygun : CtrlVal := .vundef
  cikisMuhurSaglamlik : CtrlVal := .vundef
  cikisMuhurGerginlik : CtrlVal := .vundef
  cikisMuhurKilit : CtrlVal := .vundef
  fizikiKontrol : Option (List CtrlVal) := none
  fizikiAciklama : Option (List String) := none
  zulaKontrol : Option (List CtrlVal) := none
  zulaAciklama : Option (List String) := none
  kontrolEdenAd : Option String := none
  kontrolEdenImza : Option String := none
  timestamp : Option String := none
  genelSonuc : Option String := none

deriving instance Inhabited for FormData

/-- JavaScript's `a || b` on optional strings: only the empty string is
falsy. -/
def orFalsy (a b : Option String) : Option String :=
  match a with
  | some s => if s = "" then b else some s
  | none => b

/-- JavaScript truthiness of an optional string. -/
def isTruthyStr : Option String → Bool
  | none => false
  | some s => s ≠ ""

/-- `getValueOrDash` (lines 646-659). -/
def getValueOrDash (v : Option String) : String :=
  match v with
  | none => "-"
  | some s =>
    if s = "" ∨ s = "undefined" ∨ s = "null" ∨ s = "-" ∨ s = "Belirtilmemiş"
        ∨ s = "belirtilmemiş" ∨ jsTrim s = "" then "-"
    else jsTrim s

/-! ### The section-drawing functions and the page assembler -/

/-- The x coordinate of the right column, `this.pageWidth / 2 + 10`. -/
def rightColX : ℚ := pageWidth / 2 + 10

/-- The left column of `drawBasicInfo` as (label, value) rows. -/
def basicLeftRows (fd : FormData) : List (String × String) :=
  [("MRN No:", getValueOrDash (orFalsy fd.mrnNo fd.mrn)),
   ("Rejim Hak Sahibi:", getValueOrDash (orFalsy fd.rejimHakSahibiAdi fd.rejimHak)),
   ("Sevk Durumu:", getValueOrDash fd.sevkDurumu)]

/-- The right column of `drawBasicInfo` as (label, value) rows. -/
def basicRightRows (fd : FormData) : List (String × String) :=
  [("Taşıyıcı Firma:", getValueOrDash fd.tasiyiciFirma),
   ("Araç Türü:", getValueOrDash fd.aracTuru),
   ("Mühür Durumu:", getValueOrDash fd.muhurDurumu)]

/-- The left column of `drawVehicleInfo` as (label, value) rows. -/
def vehicleLeftRows (fd : FormData) : List (String × String) :=
  [("Çekici Plaka:", getValueOrDash (orFalsy fd.cekiciPlaka fd.cekici)),
   ("Konteyner No:", getValueOrDash fd.konteynerNo),
   ("Yükleme Yeri:", getValueOrDash (orFalsy fd.loadingLocation fd.yuklemeYeri)),
   ("Öncesi Kantar (kg):", getValueOrDash (orFalsy fd.preLoadingWeight fd.yuklemeOncesiKantar))]

/-- The right column of `drawVehicleInfo` as (label, value) rows. -/
def vehicleRightRows (fd : FormData) : List (String × String) :=
  [("Dorse Plaka:", getValueOrDash (orFalsy fd.dorsePlaka fd.dorse)),
   ("Kamyon Plaka:", getValueOrDash fd.kamyonPlaka),
   ("Yükleme Tarihi:", getValueOrDash fd.yuklemeTarihi),
   ("Sonrası Kantar (kg):", getValueOrDash (orFalsy fd.postLoadingWeight fd.izinliGondericiKantar))]

/-- Writing one column of label/value rows from a snapshot cursor: each row
is a `drawLabelValue` call mutating the cursor downward. -/
def drawColumn (w : Char → ℚ) (rows : List (String × String)) (x : ℚ) : ℚ → List Op × ℚ
  | y =>
    match rows with
    | [] => ([], y)
    | r :: rest =>
      let p := drawLabelValue w r.1 r.2 x y
      let q := drawColumn w rest x p.2
      (p.1 ++ q.1, q.2)

/-- `drawBasicInfo` (lines 234-252): snapshot the cursor, write the left
column, reset, write the right column, then set the cursor to
`min(startY - 3 * lineHeight, currentY) - sectionSpacing`. -/
def drawBasicInfo (w : Char → ℚ) (fd : FormData) (y0 : ℚ) : List Op × ℚ :=
  let pl := drawColumn w (basicLeftRows fd) margin y0
  let pr := drawColumn w (basicRightRows fd) rightColX y0
  (pl.1 ++ pr.1, min (y0 - 3 * lineHeight) pr.2 - sectionSpacing)

/-- `drawVehicleInfo` (lines 254-274): the same two-column pattern with
four rows per column. -/
def drawVehicleInfo (w : Char → ℚ) (fd : FormData) (y0 : ℚ) : List Op × ℚ :=
  let pl := drawColumn w (vehicleLeftRows fd) margin y0
  let pr := drawColumn w (vehicleRightRows fd) rightColX y0
  (pl.1 ++ pr.1, min (y0 - 4 * lineHeight) pr.2 - sectionSpacing)

/-- One driver block of `drawDriverInfo` (lines 278-303). -/
def drawDriver (w : Char → ℚ) (decode : String → Except String (ℚ × ℚ)) (i : ℕ)
    (d : Driver) (y0 : ℚ) : List Op × ℚ :=
  let p1 := drawLabelValue w ("Şoför " ++ Nat.repr (i + 1) ++ " Ad:")
    (getValueOrDash (orFalsy d.ad d.adSoyad)) margin y0
  let p2 := drawLabelValue w ("Şoför " ++ Nat.repr (i + 1) ++ " Tel:")
    (getValueOrDash (orFalsy d.tel d.telefon)) rightColX y0
  let y1 := y0 - lineHeight - fieldSpacing
  if isTruthyStr d.imza then
    (p1.1 ++ p2.1 ++ [drawTextOp w ("Şoför " ++ Nat.repr (i + 1) ++ " İmza:") margin y1 9 .left]
       ++ embedSignatureOps w decode (d.imza.getD "") (margin + 80) (y1 - 18) 70 18,
     y1 - 25)
  else
    (p1.1 ++ p2.1
       ++ [drawTextOp w ("Şoför " ++ Nat.repr (i + 1) ++ " İmza: (İmza bulunamadı)") margin y1 8 .left],
     y1 - fieldSpacing)

/-- The loop over `Math.min(soforler.length, 2)` drivers. -/
def drawDriversLoop (w : Char → ℚ) (decode : String → Except String (ℚ × ℚ)) :
    ℕ → List Driver → ℚ → List Op × ℚ
  | _, [], y => ([], y)
  | i, d :: rest, y =>
    let p := drawDriver w decode i d y
    let q := drawDriversLoop w decode (i + 1) rest p.2
    (p.1 ++ q.1, q.2)

/-- `drawDriverInfo` (lines 276-309). -/
def drawDriverInfo (w : Char → ℚ) (decode : String → Except String (ℚ × ℚ))
    (fd : FormData) (y0 : ℚ) : List Op × ℚ :=
  if fd.soforler.length > 0 then
    let p := drawDriversLoop w decode 0 (fd.soforler.take 2) y0
    (p.1, p.2 - sectionSpacing)
  else
    ([drawTextOp w "Şoför bilgisi girilmemiş" margin y0 9 .left],
     y0 - lineHeight - sectionSpacing)

/-- The four seal-check label/value rows drawn in the right column. -/
def drawSealCheckRows (w : Char → ℚ) (sc : SealCheck) (y : ℚ) : List Op × ℚ :=
  let p1 := drawLabelValue w "Evrakla Uyum:" (formatCheckResult sc.evrakUyum) rightColX y
  let p2 := drawLabelValue w "Sağlamlık:" (formatCheckResult sc.saglamlik) rightColX p1.2
  let p3 := drawLabelValue w "Gerginlik:" (formatCheckResult sc.gerginlik) rightColX p2.2
  let p4 := drawLabelValue w "Kilit Uygunluğu:" (formatCheckResult sc.kilitUygunluk) rightColX p3.2
  (p1.1 ++ p2.1 ++ p3.1 ++ p4.1, p4.2)

/-- `drawSealInfo` (lines 311-384): the existing-seal block only when
`muhurDurumu === "Evet"`, then the new-seal block always, its controls
falling back to the `cikis_*` fields when `yeniMuhurKontrol` is absent
(after that fallback the object is always truthy, so the dashes-only
`else` branch of the source, lines 376-381, is unreachable). -/
def drawSealInfo (w : Char → ℚ) (fd : FormData) (y0 : ℚ) : List Op × ℚ :=
  let pA : List Op × ℚ :=
    if fd.muhurDurumu = some "Evet" then
      let header := drawTextOp w "Mevcut Mühür:" margin y0 10 .left
      let pNum := drawLabelValue w "Mühür No:" (getValueOrDash fd.muhurNum) margin (y0 - lineHeight)
      let pChk : List Op × ℚ :=
        match fd.muhurKontrol with
        | some sc => drawSealCheckRows w sc (y0 - lineHeight)
        | none => ([], y0 - lineHeight)
      (header :: (pNum.1 ++ pChk.1), min (y0 - 4 * lineHeight) pChk.2 - fieldSpacing)
    else ([], y0)
  let yN := pA.2
  let sealLabel := if fd.muhurDurumu = some "Evet" then "Yeni Mühür:" else "Mühür:"
  let header2 := drawTextOp w sealLabel margin yN 10 .left
  let pNum2 := drawLabelValue w "Mühür No:"
    (getValueOrDash (orFalsy fd.yeniMuhurNum fd.cikisYeniMuhurNo)) margin (yN - lineHeight)
  let nsc := fd.yeniMuhurKontrol.getD
    ⟨fd.cikisMuhurEvrakUygun, fd.cikisMuhurSaglamlik, fd.cikisMuhurGerginlik, fd.cikisMuhurKilit⟩
  let pChk2 := drawSealCheckRows w nsc (yN - lineHeight)
  (pA.1 ++ (header2 :: (pNum2.1 ++ pChk2.1)), min (yN - 4 * lineHeight) pChk2.2 - sectionSpacing)

/-- The fixed physical-control labels of `drawPhysicalControl`. -/
def fizikiLabels : List String :=
  ["Genel fiziki sağlamlığı ve bütünlüğü",
   "Herhangi bir zarar, yırtılma, sökülme veya parçalanma durumu yok",
   "Kapıların mekanizmalarının sağlamlığı",
   "Mühür ve kilit mekanizmalarının sağlamlığı",
   "Araç konteyner ise 7 nokta kontrolü (ön, sağ, sol, zemin, tavan, iç/dış kapılar)"]

/-- The fixed concealment-control labels of `drawHiddenCompartmentControl`. -/
def zulaLabels : List String :=
  ["Tamponlar", "Motor", "Far arkası kontrol", "Lastikler", "Tekerlek üstü kontrol",
   "Yedek lastik", "Yakıt depoları", "Egzoz", "Sürüş mili",
   "Çekici & Dorse içi / zemin kontrol", "Çekici & Dorse altı genel kontrol",
   "Yan duvarlar", "Ön duvar", "İç / dış kapılar", "Sürücü depoları", "Hava depoları",
   "Çatı", "Soğutma ünitesi"]

/-- `drawInspectorInfo` (lines 478-518). -/
def drawInspectorInfo (w : Char → ℚ) (decode : String → Except String (ℚ × ℚ))
    (now : String) (fd : FormData) (y0 : ℚ) : List Op × ℚ :=
  let p1 := drawLabelValue w "Kontrol Eden Ad Soyad:" (getValueOrDash fd.kontrolEdenAd) margin y0
  let p2 := drawLabelValue w "Kontrol Tarihi/Saati:"
    (getValueOrDash (orFalsy fd.timestamp (some now))) rightColX y0
  let y3 := min (y0 - lineHeight) p2.2 - fieldSpacing
  let p4 := drawLabelValue w "Genel Sonuç:" (getValueOrDash fd.genelSonuc) margin y3
  let y5 := p4.2 - fieldSpacing
  if isTruthyStr fd.kontrolEdenImza then
    (p1.1 ++ p2.1 ++ p4.1 ++ [drawTextOp w "Kontrol Eden İmza:" margin y5 9 .left]
       ++ embedSignatureOps w decode (fd.kontrolEdenImza.getD "") (margin + 90) (y5 - 18) 70 18,
     y5 - 25)
  else
    (p1.1 ++ p2.1 ++ p4.1
       ++ [drawTextOp w "Kontrol Eden İmza: (İmza bulunamadı)" margin y5 9 .left],
     y5 - lineHeight)

/-- `drawDocumentHeader` (lines 213-232): the three right-aligned
document-info lines; the cursor drops by `35`. -/
def drawDocumentHeader (w : Char → ℚ) (y0 : ℚ) : List Op × ℚ :=
  ([drawTextOp w "Doküman No: AKF-001" (pageWidth - margin) y0 8 .right,
    drawTextOp w "Yayın Tarihi: 01.01.2025" (pageWidth - margin) (y0 - 10) 8 .right,
    drawTextOp w "Revizyon: 01" (pageWidth - margin) (y0 - 20) 8 .right],
   y0 - 35)

/-- `addComprehensivePage` (lines 167-211): the fixed section sequence of
the single A4 page, threading the cursor from `pageHeight - margin`.
`now` stands for the wall-clock fallback `new Date().toLocaleString('tr-TR')`. -/
def addComprehensivePage (w : Char → ℚ) (decode : String → Except String (ℚ × ℚ))
    (now : String) (fd : FormData) : List Op × ℚ :=
  let y0 := pageHeight - margin
  let pH := drawDocumentHeader w y0
  let title := drawTextOp w "ARAÇ GÜVENLİK KONTROL FORMU" (pageWidth / 2) pH.2 14 .center
  let y2 := pH.2 - 18
  let s1 := drawSectionHeader w "TEMEL BİLGİLER" y2
  let b1 := drawBasicInfo w fd s1.2
  let s2 := drawSectionHeader w "ARAÇ BİLGİLERİ" b1.2
  let b2 := drawVehicleInfo w fd s2.2
  let s3 := drawSectionHeader w "ŞOFÖR BİLGİLERİ" b2.2
  let b3 := drawDriverInfo w decode fd s3.2
  let s4 := drawSectionHeader w "MÜHÜR KONTROL DETAYLARI" b3.2
  let b4 := drawSealInfo w fd s4.2
  let s5 := drawSectionHeader w "FİZİKİ KONTROL" b4.2
  let b5 := drawControlTable w fizikiLabels fd.fizikiKontrol fd.fizikiAciklama s5.2
  let s6 := drawSectionHeader w "ZULA KONTROL" b5.2
  let b6 := drawControlTable w zulaLabels fd.zulaKontrol fd.zulaAciklama s6.2
  let s7 := drawSectionHeader w "KONTROL EDEN BİLGİLERİ" b6.2
  let b7 := drawInspectorInfo w decode now fd s7.2
  (pH.1 ++ title :: (s1.1 ++ b1.1 ++ s2.1 ++ b2.1 ++ s3.1 ++ b3.1 ++ s4.1 ++ b4.1
     ++ s5.1 ++ b5.1 ++ s6.1 ++ b6.1 ++ s7.1 ++ b7.1),
   b7.2)

/-- `generatePDF`: the operation stream of the one assembled page, whose
pdf-lib serialization is the returned byte buffer. -/
def generatePDF (w : Char → ℚ) (decode : String → Except String (ℚ × ℚ))
    (now : String) (fd : FormData) : List Op :=
  (addComprehensivePage w decode now fd).1

/-- A decoder that always fails, for exercising the failure path. -/
def failDecode : String → Except String (ℚ × ℚ) := fun _ => .error "decode failed"

/-- A sample record whose inspector signature is a malformed payload. -/
def sampleForm : FormData := { kontrolEdenImza := some "not-a-real-base64" }

/-! ### Supporting lemmas about the width model and the fitting loops -/

theorem measure_append (w : Char → ℚ) (size : ℚ) (a b : List Char) :
    measure w size (a ++ b) = measure w size a + measure w size b := by
  simp [measure, mul_add]

theorem measure_nonneg (w : Char → ℚ) (hw : ∀ c, 0 ≤ w c) {size : ℚ} (hs : 0 ≤ size)
    (s : List Char) : 0 ≤ measure w size s := by
  refine mul_nonneg hs (List.sum_nonneg ?_)
  intro x hx
  obtain ⟨c, -, rfl⟩ := List.mem_map.1 hx
  exact hw c

theorem trimEnd_sublist (s : List Char) : List.Sublist (trimEnd s) s := by
  have h := (List.dropWhile_sublist (l := s.reverse) Char.isWhitespace).reverse
  simpa [trimEnd] using h

theorem measure_le_of_sublist (w : Char → ℚ) (hw : ∀ c, 0 ≤ w c) {size : ℚ} (hs : 0 ≤ size)
    {a b : List Char} (h : List.Sublist a b) : measure w size a ≤ measure w size b := by
  refine mul_le_mul_of_nonneg_left (List.Sublist.sum_le_sum (h.map w) ?_) hs
  intro x hx
  obtain ⟨c, -, rfl⟩ := List.mem_map.1 hx
  exact hw c

theorem takeFit_le (w : Char → ℚ) (size avail : ℚ) (l : List Char) :
    ∀ acc, measure w size acc ≤ avail → measure w size (takeFit w size avail acc l) ≤ avail := by
  induction l with
  | nil => intro acc h; simpa [takeFit] using h
  | cons c rest ih =>
    intro acc h
    rw [takeFit]
    split
    · exact h
    · exact ih (acc ++ [c]) (not_lt.1 (by assumption))

theorem shrinkAux_steps (w : Char → ℚ) (text : List Char) (maxW : ℚ) :
    ∀ n size, ∃ k : ℕ, shrinkAux w text maxW n size = size - (k : ℚ) / 2 := by
  intro n
  induction n with
  | zero => intro size; exact ⟨0, by simp [shrinkAux]⟩
  | succ n ih =>
    intro size
    rw [shrinkAux]
    split
    · obtain ⟨k, hk⟩ := ih (size - 1 / 2)
      refine ⟨k + 1, ?_⟩
      rw [hk]
      push_cast
      ring
    · exact ⟨0, by simp⟩

theorem shrinkAux_ge_seven (w : Char → ℚ) (text : List Char) (maxW : ℚ) :
    ∀ n size, (∃ m : ℕ, size = 7 + (m : ℚ) / 2) → 7 ≤ shrinkAux w text maxW n size := by
  intro n
  induction n with
  | zero =>
    rintro size ⟨m, rfl⟩
    have : (0 : ℚ) ≤ (m : ℚ) / 2 := by positivity
    simp only [shrinkAux]
    linarith
  | succ n ih =>
    rintro size ⟨m, rfl⟩
    rw [shrinkAux]
    split
    · rename_i hcond
      have hm : 1 ≤ m := by
        by_contra hm
        have hm0 : m = 0 := by omega
        subst hm0
        exact absurd hcond.2 (by norm_num)
      refine ih _ ⟨m - 1, ?_⟩
      have : ((m - 1 : ℕ) : ℚ) = (m : ℚ) - 1 := by
        push_cast [Nat.cast_sub hm]
        ring
      rw [this]
      ring
    · have : (0 : ℚ) ≤ (m : ℚ) / 2 := by positivity
      linarith

theorem shrinkAux_exit (w : Char → ℚ) (text : List Char) (maxW : ℚ) :
    ∀ (n : ℕ) (size : ℚ), 2 * size - 14 ≤ (n : ℚ) →
      measure w (shrinkAux w text maxW n size) text ≤ maxW ∨ shrinkAux w text maxW n size ≤ 7 := by
  intro n
  induction n with
  | zero =>
    intro size hn
    right
    simp only [shrinkAux]
    push_cast at hn
    linarith
  | succ n ih =>
    intro size hn
    rw [shrinkAux]
    split
    · refine ih (size - 1 / 2) ?_
      push_cast at hn ⊢
      linarith
    · rename_i hcond
      rcases not_and_or.mp hcond with h | h
      · exact Or.inl (not_lt.1 h)
      · exact Or.inr (not_lt.1 h)

/-- A positive rational is at most its numerator. -/
theorem rat_le_num {q : ℚ} (hq : 0 < q) : q ≤ (q.num : ℚ) := by
  conv_lhs => rw [← Rat.num_div_den q]
  have hden : (1 : ℚ) ≤ (q.den : ℚ) := by
    exact_mod_cast q.den_pos
  have hnum : (0 : ℚ) ≤ (q.num : ℚ) := by
    exact_mod_cast le_of_lt (Rat.num_pos.mpr hq)
  rw [div_le_iff₀ (by linarith)]
  nlinarith

/-- `shrinkFuel` really is enough fuel: the loop result satisfies the
`while` loop's negated condition, i.e. the text fits or the size is at
most `7`. -/
theorem fitSize_exit (w : Char → ℚ) (text : List Char) (maxW startSize : ℚ) :
    measure w (fitSize w text maxW startSize) text ≤ maxW
      ∨ fitSize w text maxW startSize ≤ 7 := by
  refine shrinkAux_exit w text maxW _ startSize ?_
  unfold shrinkFuel
  rcases le_or_lt (2 * startSize) 0 with h | h
  · have h0 : (0 : ℚ) ≤ ((2 * startSize).num.toNat + 1 : ℕ) := by positivity
    push_cast at h0 ⊢
    linarith
  · have h1 : 2 * startSize ≤ ((2 * startSize).num : ℚ) := rat_le_num h
    have h2 : ((2 * startSize).num.toNat : ℤ) = (2 * startSize).num :=
      Int.toNat_of_nonneg (le_of_lt (Rat.num_pos.mpr h))
    have h3 : (((2 * startSize).num.toNat : ℕ) : ℚ) = ((2 * startSize).num : ℚ) := by
      exact_mod_cast congrArg (fun z : ℤ => (z : ℚ)) h2
    push_cast
    push_cast at h3
    linarith

theorem fitText_size (w : Char → ℚ) (text : List Char) (maxW startSize : ℚ) :
    (fitText w text maxW startSize).size = fitSize w text maxW startSize := by
  simp only [fitText]
  split <;> rfl

/-- C1.  The width guarantee of the shrink-then-truncate fitting of
`drawLabelValue`, amended: the final font size is reached from the start
size in `0.5` steps and (for start sizes on the half-point grid at or above
`7`, such as the source's `9`) never goes below `7`; the shrinking loop
runs to its exit condition (the text fits, or the size has reached the `7`
floor); and whenever the three-dot ellipsis itself fits in the budget at
the final size, the display string measured at the final size never exceeds
the width budget.  (Without the ellipsis hypothesis the guarantee fails,
see the counterexample: for a budget smaller than the ellipsis the code
still emits `'...'`.) -/
theorem drawLabelValue_width_guarantee
    (w : Char → ℚ) (hw : ∀ c, 0 ≤ w c) (text : List Char) (maxW startSize : ℚ)
    (_hmax : 0 < maxW) (hgrid : ∃ m : ℕ, startSize = 7 + (m : ℚ) / 2)
    (hell : measure w (fitText w text maxW startSize).size ellipsis ≤ maxW) :
    7 ≤ (fitText w text maxW startSize).size ∧
    (∃ k : ℕ, (fitText w text maxW startSize).size = startSize - (k : ℚ) / 2) ∧
    (measure w (fitText w text maxW startSize).size text ≤ maxW
      ∨ (fitText w text maxW startSize).size ≤ 7) ∧
    measure w (fitText w text maxW startSize).size (fitText w text maxW startSize).display
      ≤ maxW := by
  have hsz := fitText_size w text maxW startSize
  have h7 : 7 ≤ fitSize w text maxW startSize :=
    shrinkAux_ge_seven w text maxW _ startSize hgrid
  have hspos : (0 : ℚ) ≤ fitSize w text maxW startSize := by linarith
  rw [hsz] at hell ⊢
  refine ⟨h7, shrinkAux_steps w text maxW _ startSize, fitSize_exit w text maxW startSize, ?_⟩
  by_cases hov : measure w (fitSize w text maxW startSize) text > maxW
  · have hd : (fitText w text maxW startSize).display =
        (if (fitTrimmed w text maxW startSize).length < text.length
         then fitTrimmed w text maxW startSize ++ ellipsis
         else fitTrimmed w text maxW startSize) := by
      simp only [fitText, if_pos hov]
    rw [hd]
    have hellnn : 0 ≤ measure w (fitSize w text maxW startSize) ellipsis :=
      measure_nonneg w hw hspos _
    have havail : fitAvail w text maxW startSize
        = maxW - measure w (fitSize w text maxW startSize) ellipsis := by
      unfold fitAvail
      exact max_eq_left (by linarith)
    have htake : measure w (fitSize w text maxW startSize)
        (takeFit w (fitSize w text maxW startSize) (fitAvail w text maxW startSize) [] text)
        ≤ fitAvail w text maxW startSize := by
      refine takeFit_le w _ _ text [] ?_
      have h0 : measure w (fitSize w text maxW startSize) [] = 0 := by simp [measure]
      rw [h0, fitAvail]
      exact le_max_right _ _
    have htrim : measure w (fitSize w text maxW startSize) (fitTrimmed w text maxW startSize)
        ≤ fitAvail w text maxW startSize :=
      le_trans (measure_le_of_sublist w hw hspos (trimEnd_sublist _)) htake
    rw [havail] at htrim
    split
    · rw [measure_append]
      linarith
    · linarith
  · have hd : (fitText w text maxW startSize).display = text := by
      simp only [fitText, if_neg hov]
    rw [hd]
    exact not_lt.1 hov

/-- Concrete four-character input for evaluating the fitting. -/
def aaaa : List Char := ['a', 'a', 'a', 'a']

/-- C1 counterexample: with every character one unit wide, text `"aaaa"`,
a positive width budget `1` and the source's start size `9`, the fitting
returns the bare ellipsis `'...'`, which at the final size `7` measures
`21 > 1`: the claimed guarantee fails for budgets smaller than the
ellipsis. -/
theorem drawLabelValue_width_guarantee_counterexample :
    (∀ c, 0 ≤ wOne c) ∧ (0 : ℚ) < 1 ∧
    ¬ measure wOne (fitText wOne aaaa 1 9).size (fitText wOne aaaa 1 9).display ≤ 1 := by
  refine ⟨fun c => by norm_num [wOne], by norm_num, ?_⟩
  norm_num [fitText, fitSize, fitAvail, fitTrimmed, shrinkAux, shrinkFuel, takeFit, trimEnd,
    measure, ellipsis, aaaa, wOne]

/-- C1 witness: at width budget `30` the hypotheses hold and the guarantee
applies (the loop stops at size `7.5`, where `"aaaa"` measures exactly
`30`). -/
theorem drawLabelValue_width_guarantee_witness :
    (∀ c, 0 ≤ wOne c) ∧ (0 : ℚ) < 30 ∧ (∃ m : ℕ, (9 : ℚ) = 7 + (m : ℚ) / 2) ∧
    measure wOne (fitText wOne aaaa 30 9).size ellipsis ≤ 30 ∧
    (7 ≤ (fitText wOne aaaa 30 9).size ∧
     (∃ k : ℕ, (fitText wOne aaaa 30 9).size = 9 - (k : ℚ) / 2) ∧
     (measure wOne (fitText wOne aaaa 30 9).size aaaa ≤ 30
       ∨ (fitText wOne aaaa 30 9).size ≤ 7) ∧
     measure wOne (fitText wOne aaaa 30 9).size (fitText wOne aaaa 30 9).display ≤ 30) :=
  ⟨fun c => by norm_num [wOne], by norm_num, ⟨4, by norm_num⟩,
   by norm_num [fitText, fitSize, fitAvail, fitTrimmed, shrinkAux, shrinkFuel, takeFit, trimEnd,
     measure, ellipsis, aaaa, wOne],
   drawLabelValue_width_guarantee wOne (fun c => by norm_num [wOne]) aaaa 30 9 (by norm_num)
     ⟨4, by norm_num⟩
     (by norm_num [fitText, fitSize, fitAvail, fitTrimmed, shrinkAux, shrinkFuel, takeFit, trimEnd,
       measure, ellipsis, aaaa, wOne])⟩

/-! ### C2: control-status normalization -/

/-- C2 (amended).  The control-status normalization of `drawControlTable`:
`true`, `"uygun"`, `"on"`, and any other string whose lowercase form
contains `"uygun"` but not `"değil"` (except the exact string
`"uygunsuz"`) map to `"✓ Uygun"`; `false`, `"uygunsuz"`, `"off"`, and any
string whose lowercase form contains both `"uygun"` and `"değil"` map to
`"✗ Uygun Değil"`; every other value — `null`, `undefined`, `""`, numbers,
and in particular strings containing `"değil"` without `"uygun"` — maps to
`"-"`.  (The claim's `any string containing "değil" → NotSuitable` fails:
the substring heuristic only fires for strings containing `"uygun"`; see
the counterexample.) -/
theorem controlStatus_normalization :
    controlStatusText (some (.vbool true)) = "✓ Uygun" ∧
    controlStatusText (some (.vstr "uygun")) = "✓ Uygun" ∧
    controlStatusText (some (.vstr "on")) = "✓ Uygun" ∧
    controlStatusText (some (.vbool false)) = "✗ Uygun Değil" ∧
    controlStatusText (some (.vstr "uygunsuz")) = "✗ Uygun Değil" ∧
    controlStatusText (some (.vstr "off")) = "✗ Uygun Değil" ∧
    controlStatusText none = "-" ∧
    controlStatusText (some .vnull) = "-" ∧
    controlStatusText (some .vundef) = "-" ∧
    controlStatusText (some (.vstr "")) = "-" ∧
    (∀ n : Int, controlStatusText (some (.vnum n)) = "-") ∧
    (∀ s : String, lowerContains s "uygun" = true → lowerContains s "değil" = true →
      controlStatusText (some (.vstr s)) = "✗ Uygun Değil") ∧
    (∀ s : String, s ≠ "uygunsuz" → lowerContains s "uygun" = true →
      lowerContains s "değil" = false → controlStatusText (some (.vstr s)) = "✓ Uygun") ∧
    (∀ s : String, s ≠ "on" → s ≠ "off" → lowerContains s "uygun" = false →
      controlStatusText (some (.vstr s)) = "-") := by
  refine ⟨by decide, by decide, by decide, by decide, by decide, by decide, by decide,
    by decide, by decide, by decide, ?_, ?_, ?_, ?_⟩
  · intro n
    simp [controlStatusText]
  · intro s h1 h2
    have hs1 : s ≠ "uygun" := by rintro rfl; exact absurd h2 (by decide)
    have hs2 : s ≠ "on" := by rintro rfl; exact absurd h1 (by decide)
    have hs3 : s ≠ "uygunsuz" := by rintro rfl; exact absurd h2 (by decide)
    have hs4 : s ≠ "off" := by rintro rfl; exact absurd h1 (by decide)
    simp [controlStatusText, hs1, hs2, hs3, hs4, h1, h2]
  · intro s hsuz h1 h2
    by_cases hs1 : s = "uygun"
    · subst hs1; decide
    · have hs2 : s ≠ "on" := by rintro rfl; exact absurd h1 (by decide)
      have hs3 : s ≠ "off" := by rintro rfl; exact absurd h1 (by decide)
      simp [controlStatusText, hs1, hs2, hs3, hsuz, h1, h2]
  · intro s hon hoff h1
    have hs1 : s ≠ "uygun" := by rintro rfl; exact absurd h1 (by decide)
    have hs3 : s ≠ "uygunsuz" := by rintro rfl; exact absurd h1 (by decide)
    simp [controlStatusText, hs1, hs3, hon, hoff, h1]

/-- C2 counterexample: the string `"değil"` contains `"değil"`, so the
claim requires `"✗ Uygun Değil"`, but the source renders `"-"` (the
substring branch fires only when the string also contains `"uygun"`). -/
theorem controlStatus_normalization_counterexample :
    lowerContains "değil" "değil" = true ∧
    controlStatusText (some (.vstr "değil")) = "-" ∧
    controlStatusText (some (.vstr "değil")) ≠ "✗ Uygun Değil" := by
  refine ⟨by decide, by decide, by decide⟩

/-- C2 witness: the substring clauses applied at concrete strings. -/
theorem controlStatus_normalization_witness :
    controlStatusText (some (.vstr "çok uygun değil")) = "✗ Uygun Değil" ∧
    controlStatusText (some (.vstr "tamam uygun")) = "✓ Uygun" ∧
    controlStatusText (some (.vstr "bilinmiyor")) = "-" := by
  obtain ⟨-, -, -, -, -, -, -, -, -, -, -, h12, h13, h14⟩ := controlStatus_normalization
  exact ⟨h12 "çok uygun değil" (by decide) (by decide),
    h13 "tamam uygun" (by decide) (by decide) (by decide),
    h14 "bilinmiyor" (by decide) (by decide) (by decide)⟩

/-! ### C3: legacy-shape equivalence -/

/-- C3 (amended).  For the legacy scalar shapes the equivalence holds: the
string `"uygun"` and the boolean `true` (resp. `"uygunsuz"` and `false`)
produce identical control rows, and the two-entry legacy arrays produce
identical whole tables.  But the structured object shape
`{label, uygun, aciklama}` is *not* equivalent: `drawControlTable` has no
object branch, so every object renders as the Unspecified status `"-"`
(see the counterexample). -/
theorem legacyShape_equivalence :
    (∀ i label e, controlRowOf i label (some (.vstr "uygun")) e
        = controlRowOf i label (some (.vbool true)) e) ∧
    (∀ i label e, controlRowOf i label (some (.vstr "uygunsuz")) e
        = controlRowOf i label (some (.vbool false)) e) ∧
    (∀ labels es, controlTableRows labels (some [.vstr "uygun", .vstr "uygunsuz"]) es
        = controlTableRows labels (some [.vbool true, .vbool false]) es) ∧
    (∀ i label e lab u a, (controlRowOf i label (some (.vobj lab u a)) e).status = "-") := by
  have hpos : controlStatusText (some (.vstr "uygun")) = controlStatusText (some (.vbool true)) := by
    decide
  have hneg : controlStatusText (some (.vstr "uygunsuz"))
      = controlStatusText (some (.vbool false)) := by decide
  refine ⟨?_, ?_, ?_, ?_⟩
  · intro i label e
    simp [controlRowOf, hpos]
  · intro i label e
    simp [controlRowOf, hneg]
  · intro labels es
    unfold controlTableRows
    refine List.map_congr_left ?_
    intro i _
    rcases i with _ | i
    · simp [controlRowOf, hpos]
    · rcases i with _ | i
      · simp [controlRowOf, hneg]
      · rfl
  · intro i label e lab u a
    rfl

/-- C3 counterexample: the claim's concrete instance fails — canonicalizing
`["uygun","uygunsuz"]` and the structured rows
`[{label, uygun: true}, {label, uygun: false}]` does *not* produce
identical rows, because `drawControlTable` renders every object as `"-"`. -/
theorem legacyShape_equivalence_counterexample :
    controlTableRows ["Tamponlar", "Motor"] (some [.vstr "uygun", .vstr "uygunsuz"]) none
      ≠ controlTableRows ["Tamponlar", "Motor"]
          (some [.vobj (some "Tamponlar") (some true) none,
                 .vobj (some "Motor") (some false) none]) none := by
  decide

/-! ### C5: row-count invariant -/

/-- The rows loop drops the cursor by exactly `12` per row. -/
theorem drawControlTableRowsOps_y (w : Char → ℚ) :
    ∀ rows y, (drawControlTableRowsOps w rows y).2 = y - 12 * rows.length := by
  intro rows
  induction rows with
  | nil => intro y; simp [drawControlTableRowsOps]
  | cons r rest ih =>
    intro y
    simp only [drawControlTableRowsOps, ih, List.length_cons]
    push_cast
    ring

/-- C5.  `drawControlTable` renders exactly `labels.length` rows whatever
the raw control array is (`undefined`, shorter, equal or longer); entries
beyond the control array resolve to the Unspecified status `"-"`; and the
cursor drops by the constant row height `12` per label plus the trailing
`fieldSpacing` — rows are never wrapped, skipped, or added. -/
theorem drawControlTable_row_invariant :
    (∀ labels controls explanations,
      (controlTableRows labels controls explanations).length = labels.length) ∧
    (∀ labels (cs : List CtrlVal) explanations i, i < labels.length → cs.length ≤ i →
      ∃ r, (controlTableRows labels (some cs) explanations)[i]? = some r ∧ r.status = "-") ∧
    (∀ labels explanations i, i < labels.length →
      ∃ r, (controlTableRows labels none explanations)[i]? = some r ∧ r.status = "-") ∧
    (∀ (w : Char → ℚ) labels controls explanations y,
      (drawControlTable w labels controls explanations y).2
        = y - 12 * labels.length - fieldSpacing) := by
  refine ⟨?_, ?_, ?_, ?_⟩
  · intro labels controls explanations
    simp [controlTableRows]
  · intro labels cs explanations i hi hlen
    have hnone : cs[i]? = none := List.getElem?_eq_none hlen
    have hrow : (controlTableRows labels (some cs) explanations)[i]?
        = some (controlRowOf i (labels.getD i "") none
            (explanations.bind fun es => es[i]?)) := by
      simp [controlTableRows, List.getElem?_range hi, hnone]
    exact ⟨_, hrow, rfl⟩
  · intro labels explanations i hi
    have hrow : (controlTableRows labels none explanations)[i]?
        = some (controlRowOf i (labels.getD i "") none
            (explanations.bind fun es => es[i]?)) := by
      simp [controlTableRows, List.getElem?_range hi]
    exact ⟨_, hrow, rfl⟩
  · intro w labels controls explanations y
    have h := drawControlTableRowsOps_y w (controlTableRows labels controls explanations) y
    simp only [drawControlTable, h]
    simp [controlTableRows]

/-- C5 witness: a control array shorter than the five physical-control
labels still yields a row at index `2`, with status `"-"`. -/
theorem drawControlTable_row_invariant_witness :
    2 < fizikiLabels.length ∧ ([CtrlVal.vbool true].length ≤ 2) ∧
    (∃ r, (controlTableRows fizikiLabels (some [CtrlVal.vbool true]) none)[2]? = some r
      ∧ r.status = "-") :=
  ⟨by decide, by decide,
   drawControlTable_row_invariant.2.1 fizikiLabels [CtrlVal.vbool true] none 2
     (by decide) (by decide)⟩

/-! ### C6: explanation precedence -/

/-- C6 (amended).  The explanation cell of a control-table row comes from
the parallel explanation array alone: the `aciklama` field of a structured
control object never influences the row; the cell shows the parallel entry
when it is present and non-blank, and `"-"` otherwise. -/
theorem explanation_from_parallel_array :
    (∀ i label lab u a1 a2 e, controlRowOf i label (some (.vobj lab u a1)) e
        = controlRowOf i label (some (.vobj lab u a2)) e) ∧
    (∀ i label c e, jsTrim e ≠ "" → (controlRowOf i label c (some e)).note = e) ∧
    (∀ i label c e, jsTrim e = "" → (controlRowOf i label c (some e)).note = "-") ∧
    (∀ i label c, (controlRowOf i label c none).note = "-") := by
  refine ⟨?_, ?_, ?_, ?_⟩
  · intro i label lab u a1 a2 e
    simp [controlRowOf, controlStatusText]
  · intro i label c e h
    simp [controlRowOf, h]
  · intro i label c e h
    simp [controlRowOf, h]
  · intro i label c
    rfl

/-- C6 counterexample: a structured control object carrying the explicit
per-row explanation `"X"` loses to the parallel array entry `"Y"`, and
with no parallel entry the cell is `"-"`, not `"X"`: the explicit object
field never takes precedence. -/
theorem explanation_precedence_counterexample :
    (controlRowOf 0 "Tamponlar" (some (.vobj (some "Tamponlar") (some true) (some "X")))
        (some "Y")).note = "Y" ∧
    (controlRowOf 0 "Tamponlar" (some (.vobj (some "Tamponlar") (some true) (some "X")))
        none).note = "-" ∧
    ("Y" : String) ≠ "X" := by
  refine ⟨by decide, by decide, by decide⟩

/-- C6 witness: the non-blank and blank cases of the parallel entry. -/
theorem explanation_from_parallel_array_witness :
    (jsTrim "hasar var" ≠ "" ∧
      (controlRowOf 0 "Motor" (some (.vbool true)) (some "hasar var")).note = "hasar var") ∧
    (jsTrim " " = "" ∧
      (controlRowOf 0 "Motor" (some (.vbool true)) (some " ")).note = "-") :=
  ⟨⟨by decide, explanation_from_parallel_array.2.1 0 "Motor" (some (.vbool true)) "hasar var"
      (by decide)⟩,
   ⟨by decide, explanation_from_parallel_array.2.2.1 0 "Motor" (some (.vbool true)) " "
      (by decide)⟩⟩

/-! ### C10: the seal-check formatter is strictly narrower -/

/-- C10.  `formatCheckResult` (the seal-check formatter) is strictly
narrower than the control-table normalization: it returns `"✓ Uygun"` only
for `true` or the exact string `"uygun"`, `"✗ Uygun Değil"` only for
`false` or the exact string `"uygunsuz"`, and `"-"` for every other value
— including `"on"`, `"off"`, and strings that merely contain `"uygun"`,
which `controlStatusText` classifies as suitable or not suitable. -/
theorem formatCheckResult_strict :
    formatCheckResult (.vbool true) = "✓ Uygun" ∧
    formatCheckResult (.vstr "uygun") = "✓ Uygun" ∧
    formatCheckResult (.vbool false) = "✗ Uygun Değil" ∧
    formatCheckResult (.vstr "uygunsuz") = "✗ Uygun Değil" ∧
    (formatCheckResult (.vstr "on") = "-" ∧ controlStatusText (some (.vstr "on")) = "✓ Uygun") ∧
    (formatCheckResult (.vstr "off") = "-"
      ∧ controlStatusText (some (.vstr "off")) = "✗ Uygun Değil") ∧
    (formatCheckResult (.vstr "çok uygun") = "-"
      ∧ controlStatusText (some (.vstr "çok uygun")) = "✓ Uygun") ∧
    (∀ v : CtrlVal, v ≠ .vbool true → v ≠ .vstr "uygun" → v ≠ .vbool false →
      v ≠ .vstr "uygunsuz" → formatCheckResult v = "-") := by
  refine ⟨by decide, by decide, by decide, by decide, ⟨by decide, by decide⟩,
    ⟨by decide, by decide⟩, ⟨by decide, by decide⟩, ?_⟩
  intro v h1 h2 h3 h4
  simp [formatCheckResult, h1, h2, h3, h4]

/-- C10 witness: the catch-all clause applied at the value `"on"`. -/
theorem formatCheckResult_strict_witness :
    (CtrlVal.vstr "on" ≠ .vbool true) ∧ (CtrlVal.vstr "on" ≠ .vstr "uygun") ∧
    (CtrlVal.vstr "on" ≠ .vbool false) ∧ (CtrlVal.vstr "on" ≠ .vstr "uygunsuz") ∧
    formatCheckResult (.vstr "on") = "-" :=
  ⟨by decide, by decide, by decide, by decide,
   formatCheckResult_strict.2.2.2.2.2.2.2 (.vstr "on") (by decide) (by decide) (by decide)
     (by decide)⟩

/-! ### C4: aspect-ratio fit of the signature embedding -/

/-- C4 (amended).  `embedSignature`'s aspect-ratio fit, with the branches
the way the source has them (the claim swaps them): when
`aspectRatio > box.width / box.height` the image is constrained by *width*
(`finalWidth = box.width`, `finalHeight = box.width / aspectRatio`),
otherwise by *height* (`finalHeight = box.height`,
`finalWidth = box.height * aspectRatio`); the image is centered in the box
and, for positive image and box dimensions, lies entirely inside it. -/
theorem embedSignature_aspect_fit (imgW imgH : ℚ) (b : SigBox)
    (hiw : 0 < imgW) (hih : 0 < imgH) (hbw : 0 < b.width) (hbh : 0 < b.height) :
    ((imgW / imgH > b.width / b.height →
        (embedSignatureFit imgW imgH b).width = b.width ∧
        (embedSignatureFit imgW imgH b).height = b.width / (imgW / imgH)) ∧
     (¬ imgW / imgH > b.width / b.height →
        (embedSignatureFit imgW imgH b).height = b.height ∧
        (embedSignatureFit imgW imgH b).width = b.height * (imgW / imgH))) ∧
    (embedSignatureFit imgW imgH b).x
        = b.x + (b.width - (embedSignatureFit imgW imgH b).width) / 2 ∧
    (embedSignatureFit imgW imgH b).y
        = b.y + (b.height - (embedSignatureFit imgW imgH b).height) / 2 ∧
    b.x ≤ (embedSignatureFit imgW imgH b).x ∧
    (embedSignatureFit imgW imgH b).x + (embedSignatureFit imgW imgH b).width
        ≤ b.x + b.width ∧
    b.y ≤ (embedSignatureFit imgW imgH b).y ∧
    (embedSignatureFit imgW imgH b).y + (embedSignatureFit imgW imgH b).height
        ≤ b.y + b.height := by
  have har : 0 < imgW / imgH := div_pos hiw hih
  by_cases hc : imgW / imgH > b.width / b.height
  · have hw' : (embedSignatureFit imgW imgH b).width = b.width := by
      simp [embedSignatureFit, hc]
    have hh' : (embedSignatureFit imgW imgH b).height = b.width / (imgW / imgH) := by
      simp [embedSignatureFit, hc]
    have hx' : (embedSignatureFit imgW imgH b).x = b.x + (b.width - b.width) / 2 := by
      simp [embedSignatureFit, hc]
    have hy' : (embedSignatureFit imgW imgH b).y
        = b.y + (b.height - b.width / (imgW / imgH)) / 2 := by
      simp [embedSignatureFit, hc]
    have hfh0 : 0 < b.width / (imgW / imgH) := div_pos hbw har
    have hfhle : b.width / (imgW / imgH) ≤ b.height := by
      rw [div_le_iff₀ har]
      have h2 : b.width < imgW / imgH * b.height := (div_lt_iff₀ hbh).mp hc
      nlinarith
    refine ⟨⟨fun _ => ⟨hw', hh'⟩, fun hn => absurd hc hn⟩, ?_, ?_, ?_, ?_, ?_, ?_⟩
    · rw [hx', hw']
    · rw [hy', hh']
    · rw [hx']; linarith
    · rw [hx', hw']; linarith
    · rw [hy']; linarith
    · rw [hy', hh']; linarith
  · have hw' : (embedSignatureFit imgW imgH b).width = b.height * (imgW / imgH) := by
      simp [embedSignatureFit, hc]
    have hh' : (embedSignatureFit imgW imgH b).height = b.height := by
      simp [embedSignatureFit, hc]
    have hx' : (embedSignatureFit imgW imgH b).x
        = b.x + (b.width - b.height * (imgW / imgH)) / 2 := by
      simp [embedSignatureFit, hc]
    have hy' : (embedSignatureFit imgW imgH b).y = b.y + (b.height - b.height) / 2 := by
      simp [embedSignatureFit, hc]
    have hfw0 : 0 < b.height * (imgW / imgH) := mul_pos hbh har
    have hfwle : b.height * (imgW / imgH) ≤ b.width := by
      have h2 : imgW / imgH ≤ b.width / b.height := not_lt.1 hc
      rw [mul_comm]
      exact (le_div_iff₀ hbh).mp h2
    refine ⟨⟨fun hcon => absurd hcon hc, fun _ => ⟨hh', hw'⟩⟩, ?_, ?_, ?_, ?_, ?_, ?_⟩
    · rw [hx', hw']
    · rw [hy', hh']
    · rw [hx']; linarith
    · rw [hx', hw']; linarith
    · rw [hy']; linarith
    · rw [hy', hh']; linarith

/-- C4 counterexample: a 100×10 image into the source's 70×18 signature
box has `aspectRatio = 10 > 70 / 18`, and the code sets
`finalWidth = 70 = box.width` — not `box.height * aspectRatio = 180` as
the claim states (which would overflow the box). -/
theorem embedSignature_aspect_fit_counterexample :
    ((100 : ℚ) / 10 > (SigBox.mk 110 500 70 18).width / (SigBox.mk 110 500 70 18).height) ∧
    (embedSignatureFit 100 10 ⟨110, 500, 70, 18⟩).width = 70 ∧
    (embedSignatureFit 100 10 ⟨110, 500, 70, 18⟩).width
      ≠ (SigBox.mk 110 500 70 18).height * ((100 : ℚ) / 10) := by
  refine ⟨by norm_num, ?_, ?_⟩
  · show (if (100 : ℚ) / 10 > 70 / 18 then (70 : ℚ) else 18 * (100 / 10)) = 70
    rw [if_pos (by norm_num)]
  · show (if (100 : ℚ) / 10 > 70 / 18 then (70 : ℚ) else 18 * (100 / 10)) ≠ 18 * (100 / 10)
    rw [if_pos (by norm_num)]
    norm_num

/-- C4 witness: the containment bounds at the concrete 100×10 image and
the source's signature box. -/
theorem embedSignature_aspect_fit_witness :
    (embedSignatureFit 100 10 ⟨110, 500, 70, 18⟩).width = 70 ∧
    (embedSignatureFit 100 10 ⟨110, 500, 70, 18⟩).height = 7 ∧
    ((110 : ℚ) ≤ (embedSignatureFit 100 10 ⟨110, 500, 70, 18⟩).x ∧
     (embedSignatureFit 100 10 ⟨110, 500, 70, 18⟩).x
       + (embedSignatureFit 100 10 ⟨110, 500, 70, 18⟩).width ≤ 110 + 70) := by
  have h := embedSignature_aspect_fit 100 10 ⟨110, 500, 70, 18⟩
    (by norm_num) (by norm_num) (by norm_num) (by norm_num)
  obtain ⟨⟨h1, -⟩, -, -, hx1, hx2, -, -⟩ := h
  obtain ⟨hw', hh'⟩ := h1 (by norm_num)
  exact ⟨hw', by rw [hh']; norm_num, hx1, hx2⟩

/-! ### C7: signature-embedding failures are never fatal -/

/-- C7.  When decoding the (prefix-stripped) signature payload fails, the
`catch` inside `embedSignature` absorbs the failure: the routine emits
exactly the fallback text `'(İmza yüklenemedi)'` at the box origin and
returns normally, and the page assembly still completes and produces a
non-empty operation stream (hence pdf-lib serializes a non-empty byte
buffer) for every record. -/
theorem embedSignature_failure_nonfatal
    (w : Char → ℚ) (decode : String → Except String (ℚ × ℚ)) (now : String) (fd : FormData)
    (payload : String) (x y bw bh : ℚ) (e : String)
    (h : decode (stripDataUrl payload) = .error e) :
    embedSignatureOps w decode payload x y bw bh = [Op.text "(İmza yüklenemedi)" x y 8] ∧
    generatePDF w decode now fd ≠ [] := by
  constructor
  · simp [embedSignatureOps, h, drawTextOp]
  · obtain ⟨a, t, hat⟩ : ∃ a t, generatePDF w decode now fd = a :: t := ⟨_, _, rfl⟩
    simp [hat]

/-- C7 witness: the malformed-payload scenario `"not-a-real-base64"` with
an always-failing decoder still yields the fallback text and a non-empty
operation stream. -/
theorem embedSignature_failure_nonfatal_witness :
    failDecode (stripDataUrl "not-a-real-base64") = .error "decode failed" ∧
    (embedSignatureOps wOne failDecode "not-a-real-base64" 110 500 70 18
        = [Op.text "(İmza yüklenemedi)" 110 500 8] ∧
     generatePDF wOne failDecode "now" sampleForm ≠ []) :=
  ⟨rfl, embedSignature_failure_nonfatal wOne failDecode "now" sampleForm
     "not-a-real-base64" 110 500 70 18 "decode failed" rfl⟩

/-! ### C8: two-column reconciliation -/

/-- Each `drawLabelValue` row drops the cursor by exactly `lineHeight`, so
a column of `n` rows ends `n * lineHeight` below its snapshot. -/
theorem drawColumn_y (w : Char → ℚ) :
    ∀ rows (x y : ℚ), (drawColumn w rows x y).2 = y - rows.length * lineHeight := by
  intro rows
  induction rows with
  | nil => intro x y; simp [drawColumn]
  | cons r rest ih =>
    intro x y
    simp only [drawColumn, drawLabelValue, ih, List.length_cons]
    push_cast
    ring

/-- C8.  Both two-column sections snapshot the cursor, write the left
column, reset, write the right column, and continue at
`min(after-left, after-right) - sectionSpacing`: the tallest column
determines where the next section starts. -/
theorem twoColumn_reconciliation (w : Char → ℚ) (fd : FormData) (y0 : ℚ) :
    (∀ label value (x y : ℚ), (drawLabelValue w label value x y).2 = y - lineHeight) ∧
    (∀ rows (x y : ℚ), (drawColumn w rows x y).2 = y - rows.length * lineHeight) ∧
    (drawBasicInfo w fd y0).2
      = min (drawColumn w (basicLeftRows fd) margin y0).2
          (drawColumn w (basicRightRows fd) rightColX y0).2 - sectionSpacing ∧
    (drawVehicleInfo w fd y0).2
      = min (drawColumn w (vehicleLeftRows fd) margin y0).2
          (drawColumn w (vehicleRightRows fd) rightColX y0).2 - sectionSpacing := by
  refine ⟨fun label value x y => rfl, drawColumn_y w, ?_, ?_⟩
  · have hl := drawColumn_y w (basicLeftRows fd) margin y0
    have hr := drawColumn_y w (basicRightRows fd) rightColX y0
    simp only [drawBasicInfo]
    rw [hl, hr]
    norm_num [basicLeftRows, basicRightRows]
  · have hl := drawColumn_y w (vehicleLeftRows fd) margin y0
    have hr := drawColumn_y w (vehicleRightRows fd) rightColX y0
    simp only [drawVehicleInfo]
    rw [hl, hr]
    norm_num [vehicleLeftRows, vehicleRightRows]

/-! ### C9: cursor monotonicity of the drawing primitives -/

/-- C9.  No drawing primitive moves the cursor up: the section header, the
label/value pair, each table row, and the whole control table all leave
the vertical cursor at or below where it was on entry. -/
theorem cursor_monotonic (w : Char → ℚ) :
    (∀ title y, (drawSectionHeader w title y).2 ≤ y) ∧
    (∀ label value x y, (drawLabelValue w label value x y).2 ≤ y) ∧
    (∀ rows y, (drawControlTableRowsOps w rows y).2 ≤ y) ∧
    (∀ labels controls explanations y,
      (drawControlTable w labels controls explanations y).2 ≤ y) := by
  refine ⟨?_, ?_, ?_, ?_⟩
  · intro title y
    simp only [drawSectionHeader]
    linarith
  · intro label value x y
    simp only [drawLabelValue, lineHeight]
    linarith
  · intro rows y
    rw [drawControlTableRowsOps_y]
    have h0 : (0 : ℚ) ≤ 12 * rows.length := by positivity
    linarith
  · intro labels controls explanations y
    simp only [drawControlTable]
    rw [drawControlTableRowsOps_y]
    have h0 : (0 : ℚ) ≤ 12 * (controlTableRows labels controls explanations).length := by
      positivity
    simp only [fieldSpacing]
    linarith

end PDFGen
